import Mathlib

/-!
Verification of the synchronization engine of the Figma AI responder app
(`src/main/polling.ts` and the processed-comment ledger of `src/main/store.ts`),
shallowly embedded in Lean.

Conventions of the embedding:
* `created_at` is modelled as the millisecond timestamp that
  `new Date(c.created_at).getTime()` yields in the source comparator.
* JS string truthiness (`undefined`/`null`/`''` are falsy) is modelled by
  `truthy : Option String → Bool`; a root comment's `parent_id` is the empty
  string, matching the guard `parent_id && parent_id !== ''`.
* The JS `while` loops that walk `parent_id` chains carry no cycle guard in the
  source, so they are embedded as fueled recursions returning `Option`:
  `none` means the fuel ran out, which on the canonical fuel
  `allComments.length + 1` happens exactly when the source loop diverges
  (a terminating walk never revisits a comment, hence needs at most
  `length + 1` iterations).
* `Array.prototype.sort` is stable (ES2019); any stable sort over the same
  key order is extensionally identical, so the embedding uses
  `List.insertionSort`, whose stability is proved below.
* External calls (screenshot fetch, completion request, reply post,
  notification) are modelled by an `Outcomes` record giving each call's
  result for the run under consideration.
-/

/-- A Figma comment as consumed by `polling.ts` (`FigmaComment` in
`src/types`): `parent_id` is `""` for thread roots, `user.handle` is
flattened into `handle`, `resolved_at` is absent (`none`) for unresolved
comments. -/
structure FigmaComment where
  id : String
  parent_id : String
  message : String
  handle : String
  created_at : Nat
  resolved_at : Option String
deriving DecidableEq

/-- `ThreadMessage` from `src/types`, as built in `buildThreadHistory`. -/
structure ThreadMessage where
  userName : String
  message : String
  isAI : Bool
deriving DecidableEq

/-- JS truthiness of a nullable string: `undefined`, `null` and `''` are
falsy. -/
def truthy : Option String → Bool
  | none => false
  | some s => s != ""

/-- Lower-cased character sequence of a string (JS `toLowerCase`). -/
def lowerOf (s : String) : List Char :=
  s.data.map Char.toLower

/-- `shouldTriggerAI` (polling.ts:15-19): case-insensitive substring
containment of the configured trigger in the comment text
(`lowerText.includes(trigger.toLowerCase())`).  The source reads the trigger
from `appStore.getTrigger()`; here it is passed explicitly. -/
def shouldTriggerAI (trigger text : String) : Bool :=
  decide (lowerOf trigger <:+: lowerOf text)

/-- `commentsById.get` where `commentsById = new Map(all.map(c => [c.id, c]))`:
a JS `Map` built from pairs keeps the last entry for a duplicated key, so the
lookup finds the last comment bearing the id. -/
def lookupById (cs : List FigmaComment) (i : String) : Option FigmaComment :=
  cs.reverse.find? (fun c => c.id == i)

/-- The root-finding `while` loop of `buildThreadHistory` (polling.ts:35-40).
State is `(rootId, current)`; the source assigns `rootId = current.parent_id`
*before* looking the parent up, and `break`s (keeping that assignment) when
the parent id is absent from the map.  `none` = fuel exhausted (the source
loop diverges). -/
def findRootLoop (cs : List FigmaComment) : Nat → String → FigmaComment → Option String
  | 0, _, _ => none
  | fuel + 1, rootId, current =>
    if current.parent_id != "" then
      match lookupById cs current.parent_id with
      | none => some current.parent_id
      | some parent => findRootLoop cs fuel current.parent_id parent
    else
      some rootId

/-- Root id used by `buildThreadHistory` (polling.ts:33-40), with the
canonical fuel. -/
def findRootId (cs : List FigmaComment) (target : FigmaComment) : Option String :=
  findRootLoop cs (cs.length + 1) target.id target

/-- The screenshot-anchor `while` loop of `processComment`
(polling.ts:148-151): state `(rootId, current)` with
`current = commentsById.get(rootId)`; the guard also stops when the lookup
came back empty. -/
def screenshotLoop (cs : List FigmaComment) : Nat → String → Option FigmaComment → Option String
  | 0, _, _ => none
  | fuel + 1, rootId, current =>
    match current with
    | none => some rootId
    | some cur =>
      if cur.parent_id != "" then
        screenshotLoop cs fuel cur.parent_id (lookupById cs cur.parent_id)
      else
        some rootId

/-- `screenshotCommentId` selection of `processComment` (polling.ts:142-153):
for a reply, walk to the thread root and anchor the screenshot there;
otherwise anchor at the comment itself. -/
def screenshotCommentId (cs : List FigmaComment) (c : FigmaComment) : Option String :=
  if c.parent_id != "" then
    screenshotLoop cs (cs.length + 1) c.parent_id (lookupById cs c.parent_id)
  else
    some c.id

/-- The reply-target `while` loop of `processComment` (polling.ts:183-188):
walks `current` upward, `break`ing (keeping `current`) on a missing parent;
the result is `current.id`. -/
def replyLoop (cs : List FigmaComment) : Nat → FigmaComment → Option String
  | 0, _ => none
  | fuel + 1, current =>
    if current.parent_id != "" then
      match lookupById cs current.parent_id with
      | none => some current.id
      | some parent => replyLoop cs fuel parent
    else
      some current.id

/-- `replyToId` selection of `processComment` (polling.ts:178-190). -/
def replyToId (cs : List FigmaComment) (c : FigmaComment) : Option String :=
  if c.parent_id != "" then
    replyLoop cs (cs.length + 1) c
  else
    some c.id

/-- One `for (const comment of allComments)` pass of the thread-collection
loop (polling.ts:56-62), threading the growing `threadComments`/`threadIds`
and the `foundMore` flag. -/
def collectPass : List FigmaComment → List FigmaComment → List String → Bool →
    List FigmaComment × List String × Bool
  | [], tc, ids, found => (tc, ids, found)
  | c :: rest, tc, ids, found =>
    if !(ids.contains c.id) && (c.parent_id != "") && ids.contains c.parent_id then
      collectPass rest (tc ++ [c]) (c.id :: ids) true
    else
      collectPass rest tc ids found

/-- The `while (foundMore)` fixed-point loop (polling.ts:53-63).  Every pass
that sets `foundMore` adds at least one previously-absent comment id, and a
comment is never added twice, so at most `cs.length` productive passes occur
and fuel `cs.length + 1` always reaches the closing unproductive pass. -/
def collectLoop (cs : List FigmaComment) : Nat → List FigmaComment → List String → List FigmaComment
  | 0, tc, _ => tc
  | fuel + 1, tc, ids =>
    match collectPass cs tc ids false with
    | (tc2, ids2, found) => if found then collectLoop cs fuel tc2 ids2 else tc2

/-- Thread collection of `buildThreadHistory` (polling.ts:42-63): seed with
the resolved root (when present) and the root id, then iterate passes to the
fixed point. -/
def collectThread (cs : List FigmaComment) (rootId : String) : List FigmaComment :=
  let tc0 := match lookupById cs rootId with
    | some root => [root]
    | none => []
  collectLoop cs (cs.length + 1) tc0 [rootId]

/-- The sort key relation of polling.ts:66:
`(a, b) => new Date(a.created_at).getTime() - new Date(b.created_at).getTime()`. -/
def byCreated (a b : FigmaComment) : Prop :=
  a.created_at ≤ b.created_at

instance : DecidableRel byCreated :=
  fun a b => Nat.decLe a.created_at b.created_at

instance : IsTotal FigmaComment byCreated :=
  ⟨fun a b => Nat.le_total a.created_at b.created_at⟩

instance : IsTrans FigmaComment byCreated :=
  ⟨fun _ _ _ => Nat.le_trans⟩

/-- The stable sort of polling.ts:66 (`Array.prototype.sort` is stable). -/
def sortThread (l : List FigmaComment) : List FigmaComment :=
  l.insertionSort byCreated

/-- Projection into `ThreadMessage` (polling.ts:72-77): `isAI` is inferred as
the absence of the trigger in the message's own text. -/
def toThreadMessage (trigger : String) (c : FigmaComment) : ThreadMessage :=
  { userName := c.handle
    message := c.message
    isAI := !shouldTriggerAI trigger c.message }

/-- `buildThreadHistory` (polling.ts:25-81): root walk, thread collection,
stable sort by `created_at`, then projection excluding the target itself.
`none` means the root walk of the source diverges. -/
def buildThreadHistory (trigger : String) (cs : List FigmaComment) (target : FigmaComment) :
    Option (List ThreadMessage) :=
  match findRootId cs target with
  | none => none
  | some rootId =>
    let tc := collectThread cs rootId
    some (((sortThread tc).filter (fun c => c.id != target.id)).map (toThreadMessage trigger))

/-- `appStore.addProcessedComment` (store.ts): a no-op when the id is already
present, otherwise `[...processed.slice(-999), commentId]` — keep the last
999 entries and append. -/
def addProcessedComment (processed : List String) (commentId : String) : List String :=
  if commentId ∈ processed then processed
  else processed.drop (processed.length - 999) ++ [commentId]

/-- `appStore.isCommentProcessed` (store.ts): ledger membership
(`includes`). -/
def isCommentProcessed (processed : List String) (commentId : String) : Bool :=
  decide (commentId ∈ processed)

/-- The comment filter of `checkFile` (polling.ts:243-256): not already in
the ledger, not resolved (JS truthiness of `resolved_at`), and triggering. -/
def qualifies (ledger : List String) (trigger : String) (c : FigmaComment) : Bool :=
  !(isCommentProcessed ledger c.id) && !(truthy c.resolved_at) && shouldTriggerAI trigger c.message

/-- The Comment Selector: `comments.filter(...)` of polling.ts:243-256. -/
def selectComments (ledger : List String) (trigger : String) (cs : List FigmaComment) :
    List FigmaComment :=
  cs.filter (qualifies ledger trigger)

/-- `PollingStatus` (polling.ts:91-97); `lastCheck` is a millisecond
timestamp. -/
structure PollingStatus where
  isActive : Bool
  lastCheck : Option Nat
  filesMonitored : Nat
  commentsProcessed : Nat
  lastError : Option String
deriving DecidableEq

/-- The all-empty initial status (polling.ts:99-105). -/
def initialStatus : PollingStatus :=
  { isActive := false, lastCheck := none, filesMonitored := 0
    commentsProcessed := 0, lastError := none }

/-- The engine's mutable footprint during a run: the persisted ledger
(`appStore.processedComments`), the trace of outbound reply posts
`(message, replyToId)` made via `postComment`, and the status record. -/
structure PState where
  ledger : List String
  posts : List (String × String)
  status : PollingStatus
deriving DecidableEq

/-- Result shape of `getScreenshotForComment` (figma-image.ts). -/
structure Screenshot where
  imageBase64 : Option String
  nodeId : Option String
  parentFrameId : Option String
deriving DecidableEq

/-- Results of the external calls awaited inside one `processComment` run:
`Except.error e` models the awaited promise rejecting with `e`. -/
structure Outcomes where
  screenshot : Except String Screenshot
  completion : Except String String
  post : Except String Unit
  notify : Except String Unit

/-- The `catch` block of `processComment` (polling.ts:218-221): record the
failure into `lastError`. -/
def setProcessError (st : PState) (e : String) : PState :=
  { st with status := { st.status with lastError := some ("Failed to process comment: " ++ e) } }

/-- `processComment` (polling.ts:122-222): build the thread context, resolve
the screenshot anchor, await screenshot and completion, resolve the reply
target, post, then mark the ledger and bump the counter, optionally
notifying.  The whole body sits in a `try`/`catch` whose handler is
`setProcessError`; the result is `none` exactly when one of the source's
unguarded parent walks diverges. -/
def processCommentRun (trigger : String) (notif : Bool) (cs : List FigmaComment)
    (c : FigmaComment) (o : Outcomes) (st : PState) : Option PState :=
  match buildThreadHistory trigger cs c with
  | none => none
  | some _threadHistory =>
    match screenshotCommentId cs c with
    | none => none
    | some _anchorId =>
      match o.screenshot with
      | Except.error e => some (setProcessError st e)
      | Except.ok _shot =>
        match o.completion with
        | Except.error e => some (setProcessError st e)
        | Except.ok aiResponse =>
          match replyToId cs c with
          | none => none
          | some rid =>
            match o.post with
            | Except.error e => some (setProcessError st e)
            | Except.ok _ =>
              let st1 : PState :=
                { st with
                  posts := st.posts ++ [(aiResponse, rid)]
                  ledger := addProcessedComment st.ledger c.id
                  status := { st.status with
                              commentsProcessed := st.status.commentsProcessed + 1 } }
              if notif then
                match o.notify with
                | Except.error e => some (setProcessError st1 e)
                | Except.ok _ => some st1
              else
                some st1

/-- The sequential `for (const comment of newAIComments)` loop of `checkFile`
(polling.ts:259-261); `omeg` assigns each comment its run's external-call
outcomes. -/
def processSeq (trigger : String) (notif : Bool) (omeg : FigmaComment → Outcomes)
    (all : List FigmaComment) : List FigmaComment → PState → Option PState
  | [], st => some st
  | c :: rest, st =>
    match processCommentRun trigger notif all c (omeg c) st with
    | none => none
    | some st2 => processSeq trigger notif omeg all rest st2

/-- `checkFile` (polling.ts:227-266) on a successfully fetched comment list:
select once against the entry ledger, then process sequentially. -/
def checkFileRun (trigger : String) (notif : Bool) (omeg : FigmaComment → Outcomes)
    (comments : List FigmaComment) (st : PState) : Option PState :=
  processSeq trigger notif omeg comments (selectComments st.ledger trigger comments) st

/-- The `for (const fileKey of files)` loop of `pollOnce` (polling.ts:295-297),
with `commentsOf` giving each file's fetched comment list. -/
def checkFilesSeq (trigger : String) (notif : Bool) (omeg : FigmaComment → Outcomes)
    (commentsOf : String → List FigmaComment) : List String → PState → Option PState
  | [], st => some st
  | f :: rest, st =>
    match checkFileRun trigger notif omeg (commentsOf f) st with
    | none => none
    | some st2 => checkFilesSeq trigger notif omeg commentsOf rest st2

/-- The persisted configuration read by the engine (store.ts `AppConfig` plus
the plain settings); `none` models an unset key, and credential getters
already fold in decryption failure. -/
structure AppConfig where
  figmaAccessToken : Option String
  anthropicApiKey : Option String
  pollingInterval : Option Nat
  trigger : Option String
  notificationsEnabled : Option Bool
  monitoredFiles : List String
deriving DecidableEq

/-- `appStore.hasCredentials` (store.ts): both credential strings truthy. -/
def hasCredentials (cfg : AppConfig) : Bool :=
  truthy cfg.figmaAccessToken && truthy cfg.anthropicApiKey

/-- `appStore.getPollingInterval` (store.ts): `stored || 30` (JS `||`, so an
unset or zero value falls back to 30 seconds). -/
def getPollingInterval (cfg : AppConfig) : Nat :=
  match cfg.pollingInterval with
  | some n => if n == 0 then 30 else n
  | none => 30

/-- `appStore.getTrigger` (store.ts): `stored || '@ai'`. -/
def getTrigger (cfg : AppConfig) : String :=
  match cfg.trigger with
  | some s => if s == "" then "@ai" else s
  | none => "@ai"

/-- `appStore.getNotificationsEnabled` (store.ts): defaults to `true` only
when unset. -/
def getNotificationsEnabled (cfg : AppConfig) : Bool :=
  cfg.notificationsEnabled.getD true

/-- `pollOnce` (polling.ts:271-301): configuration guards, status update,
per-file sequential checking, then the `lastCheck` stamp (`now`). -/
def pollOnceRun (cfg : AppConfig) (omeg : FigmaComment → Outcomes)
    (commentsOf : String → List FigmaComment) (now : Nat) (st : PState) : Option PState :=
  if hasCredentials cfg = false then
    some { st with status := { st.status with lastError := some "Missing API credentials" } }
  else if cfg.monitoredFiles.isEmpty then
    some { st with status := { st.status with lastError := some "No files to monitor" } }
  else
    let st1 : PState :=
      { st with status := { st.status with
                            filesMonitored := cfg.monitoredFiles.length
                            lastError := none } }
    match checkFilesSeq (getTrigger cfg) (getNotificationsEnabled cfg) omeg commentsOf
        cfg.monitoredFiles st1 with
    | none => none
    | some st2 => some { st2 with status := { st2.status with lastCheck := some now } }

/-- The Scheduler's own state (polling.ts:84-85 plus the status record):
`timerMs` models the `setInterval` handle with its period in milliseconds. -/
structure SchedState where
  isPolling : Bool
  timerMs : Option Nat
  status : PollingStatus
deriving DecidableEq

/-- Externally visible actions `startPolling` performs: the immediate
`pollOnce()` call and arming the recurring timer. -/
inductive SchedAction where
  | ranCycle : SchedAction
  | armedTimer : Nat → SchedAction
deriving DecidableEq

/-- `startPolling` (polling.ts:306-330): no-op when already polling; bail out
recording an error when credentials are missing; otherwise flip to active,
run one cycle immediately and arm the recurring timer.  The source has no
monitored-file-count guard here. -/
def startPolling (cfg : AppConfig) (s : SchedState) : SchedState × List SchedAction :=
  if s.isPolling then (s, [])
  else if hasCredentials cfg = false then
    ({ s with status := { s.status with lastError := some "Missing API credentials" } }, [])
  else
    ({ isPolling := true
       timerMs := some (getPollingInterval cfg * 1000)
       status := { s.status with isActive := true, lastError := none } },
     [SchedAction.ranCycle, SchedAction.armedTimer (getPollingInterval cfg * 1000)])

/-! ### Concrete instances used by the individual verification results -/

/-- Root comment of the tie-breaking counterexample thread (t = 0). -/
def tieA : FigmaComment := ⟨"a", "", "@ai a", "ua", 0, none⟩

/-- Reply to `tieA` (t = 5, tied with `tieC`). -/
def tieB : FigmaComment := ⟨"b", "a", "@ai b", "ub", 5, none⟩

/-- Reply to `tieB` (t = 5, tied with `tieB`, fetched before it). -/
def tieC : FigmaComment := ⟨"c", "b", "@ai c", "uc", 5, none⟩

/-- New reply to `tieC` (t = 9), the reconstruction target. -/
def tieD : FigmaComment := ⟨"d", "c", "@ai d", "ud", 9, none⟩

/-- Fetch order puts the deeper `tieC` before its parent `tieB`. -/
def tieSet : List FigmaComment := [tieC, tieB, tieA, tieD]

/-- Root comment A(t=0) of the spec's thread-ordering example. -/
def ordA : FigmaComment := ⟨"a", "", "@ai a", "ua", 0, none⟩

/-- B(reply to A, t=2) of the spec's thread-ordering example. -/
def ordB : FigmaComment := ⟨"b", "a", "@ai b", "ub", 2, none⟩

/-- C(reply to B, t=1) of the spec's thread-ordering example. -/
def ordC : FigmaComment := ⟨"c", "b", "@ai c", "uc", 1, none⟩

/-- D(reply to C, t=3), the new reply whose context is reconstructed. -/
def ordD : FigmaComment := ⟨"d", "c", "@ai d", "ud", 3, none⟩

/-- The spec's thread-ordering example comment set. -/
def ordSet : List FigmaComment := [ordA, ordB, ordC, ordD]

/-- A comment that is its own thread parent: a one-node parent-pointer
cycle. -/
def cycComment : FigmaComment := ⟨"x", "x", "@ai loop", "u", 0, none⟩

/-- Malformed comment set containing only the self-referential comment. -/
def cycSet : List FigmaComment := [cycComment]

/-- A comment whose `parent_id` references an id absent from the set. -/
def dangling : FigmaComment := ⟨"x", "ghost", "@ai x", "u", 0, none⟩

/-- Comment set for the broken-chain counterexample. -/
def danglingSet : List FigmaComment := [dangling]

/-- Broken-chain witness comment (parent `"nope"` does not exist). -/
def brokenY : FigmaComment := ⟨"y", "nope", "@ai y", "u", 3, none⟩

/-- Comment set for the broken-chain witness. -/
def brokenSet : List FigmaComment := [brokenY]

/-- A lone root comment processed in the Document Processor witness. -/
def procA : FigmaComment := ⟨"a", "", "@ai hello", "ua", 0, none⟩

/-- Comment set of the Document Processor witness. -/
def procSet : List FigmaComment := [procA]

/-- External-call outcomes in which every awaited call succeeds. -/
def procOk : Outcomes :=
  ⟨Except.ok ⟨none, none, none⟩, Except.ok "resp", Except.ok (), Except.ok ()⟩

/-- External-call outcomes in which the completion request rejects. -/
def procFail : Outcomes :=
  ⟨Except.ok ⟨none, none, none⟩, Except.error "boom", Except.ok (), Except.ok ()⟩

/-- Engine state with empty ledger, no posts, initial status. -/
def emptyState : PState := ⟨[], [], initialStatus⟩

/-- Configuration of the idempotence witness: credentials present, one
monitored file. -/
def idemCfg : AppConfig := ⟨some "t", some "k", none, none, some false, ["f"]⟩

/-- The already-ledgered qualifying comment of the idempotence witness. -/
def idemQ : FigmaComment := ⟨"q", "", "@ai q", "u", 0, none⟩

/-- Engine state whose ledger already contains `idemQ`'s id. -/
def idemState : PState := ⟨["q"], [], initialStatus⟩

/-- Selector witness: resolved comment containing the trigger. -/
def selResolved : FigmaComment := ⟨"1", "", "@ai x", "u", 0, some "2024-01-01"⟩

/-- Selector witness: unresolved comment lacking the trigger. -/
def selNoTrig : FigmaComment := ⟨"2", "", "hello", "u", 1, none⟩

/-- Selector witness: unresolved, triggering (different case), unprocessed. -/
def selFresh : FigmaComment := ⟨"3", "", "@AI please", "u", 2, none⟩

/-- Selector witness: unresolved, triggering, already in the ledger. -/
def selOld : FigmaComment := ⟨"p", "", "@ai old", "u", 3, none⟩

/-- Selector witness comment list. -/
def selSet : List FigmaComment := [selResolved, selNoTrig, selFresh, selOld]

/-- Root of the context-projection witness thread (human, has trigger). -/
def ctxRoot : FigmaComment := ⟨"a", "", "@ai review", "human", 0, none⟩

/-- Generated-looking reply in the witness thread (no trigger in text). -/
def ctxReply : FigmaComment := ⟨"r", "a", "sure, here is feedback", "bot", 1, none⟩

/-- Target comment of the context-projection witness. -/
def ctxTarget : FigmaComment := ⟨"t", "a", "@ai thanks", "human", 2, none⟩

/-- Comment set of the context-projection witness. -/
def ctxSet : List FigmaComment := [ctxRoot, ctxReply, ctxTarget]

/-- An (unreachable through the engine, but storable) ledger holding 1001
distinct ids including `"x"`. -/
def bigLedger : List String :=
  "x" :: (List.range 1000).map (fun n => toString n)

/-- Scheduler configuration with credentials but zero monitored files. -/
def noFilesCfg : AppConfig := ⟨some "t", some "k", none, none, none, []⟩

/-- Scheduler configuration with credentials and one monitored file. -/
def oneFileCfg : AppConfig := ⟨some "t", some "k", some 60, none, none, ["f"]⟩

/-- The stopped scheduler state. -/
def stoppedSched : SchedState := ⟨false, none, initialStatus⟩

/-- A running scheduler state with an armed timer. -/
def runningSched : SchedState :=
  ⟨true, some 60000, { initialStatus with isActive := true }⟩

/-- Expected engine state after the fully successful witness run. -/
def procDone : PState := ⟨["a"], [("resp", "a")], { initialStatus with commentsProcessed := 1 }⟩

/-- Expected engine state after the completion-failure witness run. -/
def procFailState : PState :=
  ⟨[], [], { initialStatus with lastError := some "Failed to process comment: boom" }⟩

/-! ### Helper lemmas -/

/-- Filtering an `orderedInsert` by a fixed `created_at` value: the inserted
element lands in front of its ties, every element it jumped has a strictly
smaller timestamp. -/
theorem filter_created_orderedInsert (a : FigmaComment) (l : List FigmaComment) (t : Nat) :
    (List.orderedInsert byCreated a l).filter (fun c => c.created_at == t) =
      if a.created_at == t then a :: l.filter (fun c => c.created_at == t)
      else l.filter (fun c => c.created_at == t) := by
  induction l with
  | nil =>
    cases h : a.created_at == t <;> simp [List.orderedInsert, List.filter, h]
  | cons b bs ih =>
    by_cases hab : byCreated a b
    · rw [List.orderedInsert, if_pos hab]
      cases h : a.created_at == t <;> simp [List.filter_cons, h]
    · rw [List.orderedInsert, if_neg hab, List.filter_cons, ih]
      have hba : b.created_at < a.created_at := by
        simpa [byCreated, Nat.not_le] using hab
      cases hat : a.created_at == t with
      | true =>
        have hbt : (b.created_at == t) = false := by
          simp only [beq_eq_false_iff_ne, ne_eq]
          have := beq_iff_eq.mp hat
          omega
        simp [hat, hbt]
      | false => simp [hat, List.filter_cons]

/-- Stability of the embedded sort: comments sharing one timestamp keep
their pre-sort relative order. -/
theorem sortThread_filter_created (l : List FigmaComment) (t : Nat) :
    (sortThread l).filter (fun c => c.created_at == t) =
      l.filter (fun c => c.created_at == t) := by
  induction l with
  | nil => rfl
  | cons a l ih =>
    rw [sortThread, List.insertionSort, filter_created_orderedInsert, List.filter_cons]
    rw [sortThread] at ih
    rw [ih]

/-- A `Map.get` on an id no list element carries comes back empty. -/
theorem lookupById_eq_none (cs : List FigmaComment) (i : String)
    (h : ∀ c ∈ cs, c.id ≠ i) : lookupById cs i = none := by
  rw [lookupById, List.find?_eq_none]
  intro x hx
  simpa using h x (List.mem_reverse.1 hx)

/-- Unfolding of the selection predicate into its three conditions. -/
theorem qualifies_iff (ledger : List String) (trigger : String) (c : FigmaComment) :
    qualifies ledger trigger c = true ↔
      c.id ∉ ledger ∧ truthy c.resolved_at = false ∧
      shouldTriggerAI trigger c.message = true := by
  simp [qualifies, isCommentProcessed, Bool.and_eq_true, Bool.not_eq_true, and_assoc]

/-- When every unresolved triggering comment is already ledgered, the
selection is empty. -/
theorem selectComments_eq_nil (ledger : List String) (trigger : String)
    (comments : List FigmaComment)
    (h : ∀ c ∈ comments, truthy c.resolved_at = false →
      shouldTriggerAI trigger c.message = true → c.id ∈ ledger) :
    selectComments ledger trigger comments = [] := by
  rw [selectComments, List.filter_eq_nil_iff]
  intro c hc hq
  obtain ⟨hm, hr, ht⟩ := (qualifies_iff ledger trigger c).1 hq
  exact hm (h c hc hr ht)

/-- A per-file loop whose every file selects nothing leaves the state
untouched. -/
theorem checkFilesSeq_ledgered (trigger : String) (notif : Bool)
    (omeg : FigmaComment → Outcomes) (commentsOf : String → List FigmaComment) :
    ∀ (files : List String) (st : PState),
      (∀ f ∈ files, selectComments st.ledger trigger (commentsOf f) = []) →
      checkFilesSeq trigger notif omeg commentsOf files st = some st
  | [], _, _ => rfl
  | f :: rest, st, h => by
    rw [checkFilesSeq]
    have h1 : checkFileRun trigger notif omeg (commentsOf f) st = some st := by
      rw [checkFileRun, h f (List.mem_cons_self _ _)]
      rfl
    rw [h1]
    exact checkFilesSeq_ledgered trigger notif omeg commentsOf rest st
      (fun g hg => h g (List.mem_cons_of_mem _ hg))

/-! ### Claim results -/

/-- Claim C1 (amended): the thread context is the collected thread sorted by
`createdAt` ascending, with ties broken by the comments' positions in the
collection order (root first, then the order the fixed-point scan over the
fetch list discovers them) — not by original fetch-order position: the
witnessing sorted list `s` is a permutation of `collectThread`, is sorted by
`created_at`, keeps each timestamp class in collection order, and determines
the produced context. -/
theorem thread_context_sorted_stable (trigger : String) (cs : List FigmaComment)
    (target : FigmaComment) (rootId : String)
    (hroot : findRootId cs target = some rootId) :
    ∃ s : List FigmaComment,
      s.Perm (collectThread cs rootId) ∧
      List.Sorted byCreated s ∧
      (∀ t, s.filter (fun c => c.created_at == t) =
        (collectThread cs rootId).filter (fun c => c.created_at == t)) ∧
      buildThreadHistory trigger cs target =
        some ((s.filter (fun c => c.id != target.id)).map (toThreadMessage trigger)) := by
  refine ⟨sortThread (collectThread cs rootId), List.perm_insertionSort _ _,
    List.sorted_insertionSort _ _, fun t => sortThread_filter_created _ t, ?_⟩
  simp only [buildThreadHistory, hroot]

/-- Claim C1, counterexample to the fetch-order tie-break: in `tieSet` the
comments `tieB` and `tieC` share `created_at = 5` and `tieC` is fetched
first, yet the produced context lists `tieB`'s message before `tieC`'s,
because the collection scan reaches the shallower `tieB` first. -/
theorem thread_order_fetch_tiebreak_refuted :
    buildThreadHistory "@ai" tieSet tieD =
      some [⟨"ua", "@ai a", false⟩, ⟨"ub", "@ai b", false⟩, ⟨"uc", "@ai c", false⟩] ∧
    buildThreadHistory "@ai" tieSet tieD ≠
      some [⟨"ua", "@ai a", false⟩, ⟨"uc", "@ai c", false⟩, ⟨"ub", "@ai b", false⟩] :=
  ⟨by decide, by decide⟩

/-- Claim C1, witness: on the spec's A(t=0), B(t=2, reply to A),
C(t=1, reply to B), D(reply to C) example the context really is [A, C, B],
and the amended characterisation applies. -/
theorem thread_order_witness :
    findRootId ordSet ordD = some "a" ∧
    buildThreadHistory "@ai" ordSet ordD =
      some [⟨"ua", "@ai a", false⟩, ⟨"uc", "@ai c", false⟩, ⟨"ub", "@ai b", false⟩] ∧
    (∃ s : List FigmaComment,
      s.Perm (collectThread ordSet "a") ∧
      List.Sorted byCreated s ∧
      (∀ t, s.filter (fun c => c.created_at == t) =
        (collectThread ordSet "a").filter (fun c => c.created_at == t)) ∧
      buildThreadHistory "@ai" ordSet ordD =
        some ((s.filter (fun c => c.id != ordD.id)).map (toThreadMessage "@ai"))) :=
  ⟨by decide, by decide, thread_context_sorted_stable "@ai" ordSet ordD "a" (by decide)⟩

/-- Claim C2: none of the three parent walks tracks visited ids, so on the
self-referential comment `cycComment` every walk runs out of any amount of
fuel — the source loops forever instead of aborting with the last good
node. -/
theorem cyclic_walks_diverge :
    (∀ fuel rootId, findRootLoop cycSet fuel rootId cycComment = none) ∧
    (∀ fuel rootId, screenshotLoop cycSet fuel rootId (some cycComment) = none) ∧
    (∀ fuel, replyLoop cycSet fuel cycComment = none) ∧
    findRootId cycSet cycComment = none ∧
    buildThreadHistory "@ai" cycSet cycComment = none := by
  have hlook : lookupById cycSet cycComment.parent_id = some cycComment := rfl
  have hp : (cycComment.parent_id != "") = true := rfl
  have h1 : ∀ fuel rootId, findRootLoop cycSet fuel rootId cycComment = none := by
    intro fuel
    induction fuel with
    | zero => intro _; rfl
    | succ n ih =>
      intro rootId
      rw [findRootLoop, if_pos hp, hlook]
      exact ih _
  have h2 : ∀ fuel rootId, screenshotLoop cycSet fuel rootId (some cycComment) = none := by
    intro fuel
    induction fuel with
    | zero => intro _; rfl
    | succ n ih =>
      intro rootId
      rw [screenshotLoop]
      simp only [if_pos hp]
      rw [hlook]
      exact ih _
  have h3 : ∀ fuel, replyLoop cycSet fuel cycComment = none := by
    intro fuel
    induction fuel with
    | zero => rfl
    | succ n ih =>
      rw [replyLoop, if_pos hp, hlook]
      exact ih
  have h4 : findRootId cycSet cycComment = none := h1 _ _
  refine ⟨h1, h2, h3, h4, ?_⟩
  simp only [buildThreadHistory, h4]

/-- Claim C3 (amended): when the target's `parent_id` names an id absent
from the set, the reply-target walk returns the target itself, but the
thread-reconstruction walk and the screenshot-anchor walk both resolve to
the missing parent id (assigned before the failed lookup), which is not the
id of any comment in the set. -/
theorem broken_chain_roots (cs : List FigmaComment) (target : FigmaComment)
    (hp : target.parent_id ≠ "")
    (hmiss : ∀ c ∈ cs, c.id ≠ target.parent_id) :
    replyToId cs target = some target.id ∧
    findRootId cs target = some target.parent_id ∧
    screenshotCommentId cs target = some target.parent_id := by
  have hl : lookupById cs target.parent_id = none := lookupById_eq_none cs _ hmiss
  have hp2 : (target.parent_id != "") = true := by simpa using hp
  refine ⟨?_, ?_, ?_⟩
  · rw [replyToId, if_pos hp2, replyLoop, if_pos hp2, hl]
  · rw [findRootId, findRootLoop, if_pos hp2, hl]
  · rw [screenshotCommentId, if_pos hp2, hl, screenshotLoop]

/-- Claim C3, counterexample: `dangling` points at the nonexistent parent
`"ghost"`, and both the thread-reconstruction and the screenshot walks
resolve the root as `"ghost"` — an id of no comment in the set — rather
than as the target itself. -/
theorem broken_chain_refuted :
    (∀ c ∈ danglingSet, c.id ≠ "ghost") ∧
    dangling.parent_id = "ghost" ∧
    findRootId danglingSet dangling = some "ghost" ∧
    screenshotCommentId danglingSet dangling = some "ghost" ∧
    findRootId danglingSet dangling ≠ some dangling.id := by
  decide

/-- Claim C3, witness: the amended statement applied to `brokenY`, whose
parent `"nope"` is missing — the reply target is `brokenY` itself while the
other two walks yield `"nope"`. -/
theorem broken_chain_witness :
    brokenY.parent_id ≠ "" ∧ (∀ c ∈ brokenSet, c.id ≠ brokenY.parent_id) ∧
    replyToId brokenSet brokenY = some brokenY.id ∧
    findRootId brokenSet brokenY = some brokenY.parent_id ∧
    screenshotCommentId brokenSet brokenY = some brokenY.parent_id := by
  have h := broken_chain_roots brokenSet brokenY (by decide) (by decide)
  exact ⟨by decide, by decide, h.1, h.2.1, h.2.2⟩

/-- Claim C4: every terminating `processComment` run yields a state (the
`catch` absorbs all failures); when the screenshot fetch, the completion
request or the reply post fails, the ledger, the posts and the processed
counter are untouched and the failure is recorded in `lastError`; when all
three succeed, exactly one reply is posted, the ledger is marked once and
the counter is incremented once. -/
theorem processComment_effects (trigger : String) (notif : Bool) (cs : List FigmaComment)
    (c : FigmaComment) (o : Outcomes) (st st2 : PState)
    (h : processCommentRun trigger notif cs c o st = some st2) :
    ((o.screenshot.isOk = false ∨ o.completion.isOk = false ∨ o.post.isOk = false) →
      st2.ledger = st.ledger ∧ st2.posts = st.posts ∧
      st2.status.commentsProcessed = st.status.commentsProcessed ∧
      ∃ e, st2.status.lastError = some ("Failed to process comment: " ++ e)) ∧
    ((o.screenshot.isOk = true ∧ o.completion.isOk = true ∧ o.post.isOk = true) →
      ∃ resp rid, o.completion = Except.ok resp ∧ replyToId cs c = some rid ∧
        st2.posts = st.posts ++ [(resp, rid)] ∧
        st2.ledger = addProcessedComment st.ledger c.id ∧
        st2.status.commentsProcessed = st.status.commentsProcessed + 1) := by
  rw [processCommentRun] at h
  split at h
  · exact absurd h (by simp)
  split at h
  · exact absurd h (by simp)
  split at h
  next e hshot =>
    injection h with h2
    subst h2
    refine ⟨fun _ => ⟨rfl, rfl, rfl, e, rfl⟩, ?_⟩
    rintro ⟨hok, -, -⟩
    rw [hshot] at hok
    simp [Except.isOk, Except.toBool] at hok
  next shot hshot =>
  split at h
  next e hcomp =>
    injection h with h2
    subst h2
    refine ⟨fun _ => ⟨rfl, rfl, rfl, e, rfl⟩, ?_⟩
    rintro ⟨-, hok, -⟩
    rw [hcomp] at hok
    simp [Except.isOk, Except.toBool] at hok
  next resp hcomp =>
  split at h
  · exact absurd h (by simp)
  next rid hrid =>
  split at h
  next e hpost =>
    injection h with h2
    subst h2
    refine ⟨fun _ => ⟨rfl, rfl, rfl, e, rfl⟩, ?_⟩
    rintro ⟨-, -, hok⟩
    rw [hpost] at hok
    simp [Except.isOk, Except.toBool] at hok
  next u hpost =>
    have hgoal : st2.posts = st.posts ++ [(resp, rid)] ∧
        st2.ledger = addProcessedComment st.ledger c.id ∧
        st2.status.commentsProcessed = st.status.commentsProcessed + 1 := by
      split at h
      · split at h
        next e hnot =>
          injection h with h2
          subst h2
          exact ⟨rfl, rfl, rfl⟩
        next u2 hnot =>
          injection h with h2
          subst h2
          exact ⟨rfl, rfl, rfl⟩
      · injection h with h2
        subst h2
        exact ⟨rfl, rfl, rfl⟩
    refine ⟨?_, fun _ => ⟨resp, rid, hcomp, hrid, hgoal⟩⟩
    rintro (hbad | hbad | hbad)
    · rw [hshot] at hbad
      simp [Except.isOk, Except.toBool] at hbad
    · rw [hcomp] at hbad
      simp [Except.isOk, Except.toBool] at hbad
    · rw [hpost] at hbad
      simp [Except.isOk, Except.toBool] at hbad

/-- Claim C4, witness: a fully successful run posts one reply and marks the
ledger once, and a completion-failure run leaves ledger, posts and counter
untouched while recording the error. -/
theorem processComment_witness :
    processCommentRun "@ai" false procSet procA procOk emptyState = some procDone ∧
    (∃ resp rid, procOk.completion = Except.ok resp ∧ replyToId procSet procA = some rid ∧
      procDone.posts = emptyState.posts ++ [(resp, rid)] ∧
      procDone.ledger = addProcessedComment emptyState.ledger procA.id ∧
      procDone.status.commentsProcessed = emptyState.status.commentsProcessed + 1) ∧
    processCommentRun "@ai" false procSet procA procFail emptyState = some procFailState ∧
    (procFailState.ledger = emptyState.ledger ∧ procFailState.posts = emptyState.posts ∧
      procFailState.status.commentsProcessed = emptyState.status.commentsProcessed ∧
      ∃ e, procFailState.status.lastError = some ("Failed to process comment: " ++ e)) := by
  refine ⟨by decide, ?_, by decide, ?_⟩
  · exact (processComment_effects "@ai" false procSet procA procOk emptyState procDone
      (by decide)).2 (by decide)
  · exact (processComment_effects "@ai" false procSet procA procFail emptyState procFailState
      (by decide)).1 (by decide)

/-- Claim C5: a poll cycle run against comment sets whose every unresolved
triggering comment is already in the ledger selects nothing in every file,
posts no replies and leaves the ledger unchanged. -/
theorem cycle_idempotent (cfg : AppConfig) (omeg : FigmaComment → Outcomes)
    (commentsOf : String → List FigmaComment) (now : Nat) (st : PState)
    (hcred : hasCredentials cfg = true)
    (hfiles : cfg.monitoredFiles ≠ [])
    (hled : ∀ f ∈ cfg.monitoredFiles, ∀ c ∈ commentsOf f,
      truthy c.resolved_at = false →
      shouldTriggerAI (getTrigger cfg) c.message = true → c.id ∈ st.ledger) :
    (∀ f ∈ cfg.monitoredFiles,
      selectComments st.ledger (getTrigger cfg) (commentsOf f) = []) ∧
    ∃ st2, pollOnceRun cfg omeg commentsOf now st = some st2 ∧
      st2.ledger = st.ledger ∧ st2.posts = st.posts := by
  have hsel : ∀ f ∈ cfg.monitoredFiles,
      selectComments st.ledger (getTrigger cfg) (commentsOf f) = [] :=
    fun f hf => selectComments_eq_nil _ _ _ (hled f hf)
  refine ⟨hsel, ?_⟩
  have hne : cfg.monitoredFiles.isEmpty = false := by
    simpa [List.isEmpty_iff] using hfiles
  rw [pollOnceRun, hcred]
  simp only [Bool.true_eq_false, if_false, hne]
  set st1 : PState :=
    { st with status := { st.status with
                          filesMonitored := cfg.monitoredFiles.length
                          lastError := none } } with hst1
  have hseq : checkFilesSeq (getTrigger cfg) (getNotificationsEnabled cfg) omeg commentsOf
      cfg.monitoredFiles st1 = some st1 := by
    apply checkFilesSeq_ledgered
    intro f hf
    have hled1 : st1.ledger = st.ledger := rfl
    rw [hled1]
    exact hsel f hf
  rw [hseq]
  exact ⟨_, rfl, rfl, rfl⟩

/-- Claim C5, witness: with the single qualifying comment `idemQ` already in
the ledger, a cycle over one monitored file selects nothing and changes
neither ledger nor posts. -/
theorem cycle_idempotent_witness :
    (∀ f ∈ idemCfg.monitoredFiles,
      selectComments idemState.ledger (getTrigger idemCfg) ((fun _ => [idemQ]) f) = []) ∧
    ∃ st2, pollOnceRun idemCfg (fun _ => procFail) (fun _ => [idemQ]) 99 idemState = some st2 ∧
      st2.ledger = idemState.ledger ∧ st2.posts = idemState.posts :=
  cycle_idempotent idemCfg (fun _ => procFail) (fun _ => [idemQ]) 99 idemState
    (by decide) (by decide) (by decide)

/-- Claim C6: a comment is selected iff it is in the input, its id is not in
the ledger, its `resolved_at` is empty and its text contains the trigger
case-insensitively; the selection is a sublist of the input (relative order
preserved), and on duplicate-free input each selected comment occurs exactly
once.  `selectComments` is a pure function. -/
theorem selector_correct (ledger : List String) (trigger : String) (cs : List FigmaComment) :
    (∀ c, c ∈ selectComments ledger trigger cs ↔
      c ∈ cs ∧ c.id ∉ ledger ∧ truthy c.resolved_at = false ∧
      shouldTriggerAI trigger c.message = true) ∧
    List.Sublist (selectComments ledger trigger cs) cs ∧
    (cs.Nodup → ∀ c ∈ selectComments ledger trigger cs,
      (selectComments ledger trigger cs).count c = 1) := by
  refine ⟨fun c => ?_, List.filter_sublist _, fun hnd c hc => ?_⟩
  · rw [selectComments, List.mem_filter, qualifies_iff]
  · exact List.count_eq_one_of_mem ((List.filter_sublist _).nodup hnd) hc

/-- Claim C6, witness: on `selSet` the resolved triggering comment, the
unresolved non-triggering comment and the ledgered comment are excluded,
and the fresh triggering comment appears exactly once. -/
theorem selector_witness :
    selSet.Nodup ∧
    (∀ c ∈ selectComments ["p"] "@ai" selSet, (selectComments ["p"] "@ai" selSet).count c = 1) :=
  ⟨by decide, (selector_correct ["p"] "@ai" selSet).2.2 (by decide)⟩

/-- Claim C7: every produced context message stems from a collected thread
comment whose id differs from the target's (the target itself is excluded),
every non-target collected comment is represented, and each message's
`isAI` flag is true exactly when its own text lacks the trigger. -/
theorem context_excludes_target (trigger : String) (cs : List FigmaComment)
    (target : FigmaComment) (rootId : String) (H : List ThreadMessage)
    (hroot : findRootId cs target = some rootId)
    (hH : buildThreadHistory trigger cs target = some H) :
    (∀ m ∈ H, (m.isAI = true ↔ shouldTriggerAI trigger m.message = false)) ∧
    (∀ m ∈ H, ∃ c, c ∈ collectThread cs rootId ∧ c.id ≠ target.id ∧
      m = toThreadMessage trigger c) ∧
    (∀ c ∈ collectThread cs rootId, c.id ≠ target.id → toThreadMessage trigger c ∈ H) := by
  have hH2 : H = ((sortThread (collectThread cs rootId)).filter
      (fun c => c.id != target.id)).map (toThreadMessage trigger) := by
    simp only [buildThreadHistory, hroot] at hH
    exact (Option.some.inj hH).symm
  subst hH2
  refine ⟨?_, ?_, ?_⟩
  · intro m hm
    obtain ⟨c, _, rfl⟩ := List.mem_map.1 hm
    simp [toThreadMessage]
  · intro m hm
    obtain ⟨c, hc, rfl⟩ := List.mem_map.1 hm
    obtain ⟨hc1, hc2⟩ := List.mem_filter.1 hc
    exact ⟨c, ((List.perm_insertionSort _ _).mem_iff).1 hc1, by simpa using hc2, rfl⟩
  · intro c hc hne
    refine List.mem_map_of_mem _ (List.mem_filter.2 ⟨?_, by simpa⟩)
    exact ((List.perm_insertionSort _ _).mem_iff).2 hc

/-- Claim C7, witness: reconstructing context for `ctxTarget` keeps the root
and the trigger-free reply (flagged as generated), drops the target, and the
`isAI` flag matches trigger absence on each kept message. -/
theorem context_witness :
    findRootId ctxSet ctxTarget = some "a" ∧
    buildThreadHistory "@ai" ctxSet ctxTarget =
      some [⟨"human", "@ai review", false⟩, ⟨"bot", "sure, here is feedback", true⟩] ∧
    (∀ m ∈ ([⟨"human", "@ai review", false⟩,
        ⟨"bot", "sure, here is feedback", true⟩] : List ThreadMessage),
      (m.isAI = true ↔ shouldTriggerAI "@ai" m.message = false)) :=
  ⟨by decide, by decide,
    (context_excludes_target "@ai" ctxSet ctxTarget "a"
      [⟨"human", "@ai review", false⟩, ⟨"bot", "sure, here is feedback", true⟩]
      (by decide) (by decide)).1⟩

/-- Claim C8 (amended): `markProcessed` always leaves the id present; a
duplicate mark leaves the stored ledger completely unchanged (so an
oversized pre-state stays oversized); a fresh mark evicts from the front
down to 999 entries and appends, yielding a suffix of `old ++ [id]` of
length at most 1000; the 1000 cap is preserved from any capped pre-state. -/
theorem ledger_mark (l : List String) (i : String) :
    i ∈ addProcessedComment l i ∧
    (i ∈ l → addProcessedComment l i = l) ∧
    (i ∉ l → addProcessedComment l i <:+ l ++ [i] ∧
      (addProcessedComment l i).length ≤ 1000) ∧
    (l.length ≤ 1000 → (addProcessedComment l i).length ≤ 1000) := by
  by_cases h : i ∈ l
  · rw [addProcessedComment, if_pos h]
    exact ⟨h, fun _ => rfl, fun hn => absurd h hn, fun hl => hl⟩
  · rw [addProcessedComment, if_neg h]
    have hlen : (l.drop (l.length - 999) ++ [i]).length ≤ 1000 := by
      rw [List.length_append, List.length_drop]
      simp
      omega
    refine ⟨List.mem_append_right _ (List.mem_singleton_self i), fun hi => absurd hi h,
      fun _ => ⟨⟨l.take (l.length - 999), ?_⟩, hlen⟩, fun _ => hlen⟩
    rw [← List.append_assoc, List.take_append_drop]

/-- Claim C8, counterexample: marking an id already present in a stored
1001-entry ledger is a no-op, so the result still exceeds the 1000 cap. -/
theorem ledger_cap_refuted : 1000 < (addProcessedComment bigLedger "x").length := by
  have hm : "x" ∈ bigLedger := List.mem_cons_self _ _
  rw [addProcessedComment, if_pos hm]
  simp [bigLedger]

/-- Claim C8, witness: a fresh mark on a small ledger appends the id, stays
a suffix of `old ++ [id]`, respects the cap, and a duplicate mark is a
no-op. -/
theorem ledger_mark_witness :
    ("b" ∉ (["a"] : List String)) ∧
    "b" ∈ addProcessedComment ["a"] "b" ∧
    addProcessedComment ["a"] "b" <:+ (["a"] ++ ["b"]) ∧
    (addProcessedComment ["a"] "b").length ≤ 1000 ∧
    ("a" ∈ (["a"] : List String) → addProcessedComment ["a"] "a" = ["a"]) := by
  have h := ledger_mark ["a"] "b"
  have h2 := ledger_mark ["a"] "a"
  exact ⟨by decide, h.1, (h.2.2.1 (by decide)).1, (h.2.2.1 (by decide)).2, h2.2.1⟩

/-- Claim C9 (amended): re-entering start while running is a no-op; with the
credential guard failing no transition happens; with credentials present the
Stopped state transitions to Running, immediately runs one cycle and arms
the timer at the configured interval — with no monitored-document-count
guard on the transition; a cycle over zero documents merely records the
"No files to monitor" error. -/
theorem scheduler_start (cfg : AppConfig) (s : SchedState) :
    (s.isPolling = true → startPolling cfg s = (s, [])) ∧
    (s.isPolling = false → hasCredentials cfg = false →
      (startPolling cfg s).1.isPolling = false ∧
      (startPolling cfg s).1.timerMs = s.timerMs ∧
      (startPolling cfg s).2 = []) ∧
    (s.isPolling = false → hasCredentials cfg = true →
      (startPolling cfg s).1.isPolling = true ∧
      (startPolling cfg s).1.timerMs = some (getPollingInterval cfg * 1000) ∧
      (startPolling cfg s).2 =
        [SchedAction.ranCycle, SchedAction.armedTimer (getPollingInterval cfg * 1000)]) ∧
    (∀ omeg commentsOf (now : Nat) (st : PState),
      hasCredentials cfg = true → cfg.monitoredFiles = [] →
      pollOnceRun cfg omeg commentsOf now st =
        some { st with status := { st.status with
                                   lastError := some "No files to monitor" } }) := by
  refine ⟨fun hp => ?_, fun hp hc => ?_, fun hp hc => ?_, fun omeg commentsOf now st hc hf => ?_⟩
  · rw [startPolling, if_pos hp]
  · rw [startPolling, if_neg (by simp [hp]), if_pos (by simp [hc])]
    exact ⟨by simpa using hp, rfl, rfl⟩
  · rw [startPolling, if_neg (by simp [hp]), if_neg (by simp [hc])]
    exact ⟨rfl, rfl, rfl⟩
  · rw [pollOnceRun, if_neg (by simp [hc]), if_pos (by simp [hf, List.isEmpty_iff])]

/-- Claim C9, counterexample: with credentials present but zero monitored
files, start still transitions Stopped to Running and arms the default
30-second timer — the monitored-document-count precondition is not
enforced at the transition. -/
theorem scheduler_start_guard_refuted :
    noFilesCfg.monitoredFiles = [] ∧ stoppedSched.isPolling = false ∧
    (startPolling noFilesCfg stoppedSched).1.isPolling = true ∧
    (startPolling noFilesCfg stoppedSched).1.timerMs = some 30000 := by
  decide

/-- Claim C9, witness: start on a running scheduler is a no-op; start on a
stopped scheduler with credentials runs one cycle and arms the configured
60-second timer; a credentialed cycle over zero files only records the
error. -/
theorem scheduler_start_witness :
    startPolling oneFileCfg runningSched = (runningSched, []) ∧
    (startPolling oneFileCfg stoppedSched).1.isPolling = true ∧
    (startPolling oneFileCfg stoppedSched).1.timerMs =
      some (getPollingInterval oneFileCfg * 1000) ∧
    (startPolling oneFileCfg stoppedSched).2 =
      [SchedAction.ranCycle, SchedAction.armedTimer (getPollingInterval oneFileCfg * 1000)] ∧
    pollOnceRun noFilesCfg (fun _ => procFail) (fun _ => []) 0 emptyState =
      some { emptyState with status := { emptyState.status with
                                         lastError := some "No files to monitor" } } := by
  have h1 := (scheduler_start oneFileCfg runningSched).1 rfl
  have h3 := (scheduler_start oneFileCfg stoppedSched).2.2.1 rfl (by decide)
  have h4 := (scheduler_start noFilesCfg stoppedSched).2.2.2 (fun _ => procFail) (fun _ => []) 0
    emptyState (by decide) rfl
  exact ⟨h1, h3.1, h3.2.1, h3.2.2, h4⟩
